import Mathlib

/-!
# FinProject — Plan Allocation / Recalculation and Analytics: a shallow embedding

This file embeds, in Lean 4, the arithmetic core of the FinProject budget
service and settles the frozen specification claims about it.

Python `Decimal` values are modelled as `ℚ` (exact arithmetic); Python's
`round(x, 2)` on a `Decimal` quantizes with ROUND_HALF_EVEN, modelled by
`round2` below, and `round(x)` on a number by `roundHalfEvenInt`.  Python
`float` series in the analytics code are likewise modelled over `ℚ`; the
claims settled against them do not depend on binary-float rounding.
Database state touched by `recalculate_plan_with_actual`
(`src/service/finance/plan_value.py`) is modelled as the `PlanState`
record; the current calendar month, which the source reads from the
clock, is passed as the explicit parameter `currentMonth`.
-/

/-- Round-half-to-even of a rational to an integer, as Python's `round`
(and `Decimal` quantization with ROUND_HALF_EVEN). -/
def roundHalfEvenInt (x : ℚ) : ℤ :=
  let f := ⌊x⌋
  let r := x - f
  if r < 1/2 then f
  else if 1/2 < r then f + 1
  else if 2 ∣ f then f else f + 1

/-- Python's `round(x, 2)` on a `Decimal`: half-even rounding to two
fractional digits. -/
def round2 (x : ℚ) : ℚ :=
  (roundHalfEvenInt (x * 100) : ℚ) / 100

/-! ## Plan Allocation Engine — `distribute_yearly_plan`

From `src/service/finance/plan_value.py`, lines 93–161: the quarterly
value is `round(yearly_value / 4, 2)`; the remainder
`yearly_value - quarterly * 4` is added to quarter 4.  Within a quarter
with value `c`, the monthly value is `round(c / 3, 2)` and the third
month of the quarter absorbs `c - monthly * 3`. -/

/-- Value assigned to quarter `q` (1-based) by `distribute_yearly_plan`. -/
def quarterValue (yearlyValue : ℚ) (q : ℕ) : ℚ :=
  let quarterly := round2 (yearlyValue / 4)
  let remaining := yearlyValue - quarterly * 4
  if q = 4 then quarterly + remaining else quarterly

/-- Value assigned to month `month` (1-based, 1..12) by
`distribute_yearly_plan`; months 3, 6, 9 and 12 absorb their quarter's
rounding remainder. -/
def monthValue (yearlyValue : ℚ) (month : ℕ) : ℚ :=
  let q := (month - 1) / 3 + 1
  let c := quarterValue yearlyValue q
  let monthly := round2 (c / 3)
  let monthRemaining := c - monthly * 3
  if month % 3 = 0 then monthly + monthRemaining else monthly

/-! ## Plan Recalculation Engine — `recalculate_plan_with_actual`

From `src/service/finance/plan_value.py`, lines 231–411.  The database
rows the function can read or write are modelled by `PlanState`: the
yearly PlanValue (if any), and for each month/quarter number whether a
Period row exists and what its PlanValue (if any) holds.  The source
builds dictionaries `month_plans` / `quarter_plans` from the pre-call
state and keeps reading those now-stale entries after it has issued
updates; the embedding therefore reads all sums from the original `st`. -/

structure PlanState where
  yearPlan : Option ℚ
  monthPeriod : ℕ → Bool
  quarterPeriod : ℕ → Bool
  monthPlan : ℕ → Option ℚ
  quarterPlan : ℕ → Option ℚ

/-- Membership test `month in month_plans`: the dictionary holds a
month's plan exactly when a Period row for the month exists and a
PlanValue row was found for it. -/
def inMonthPlans (st : PlanState) (m : ℕ) : Bool :=
  st.monthPeriod m && (st.monthPlan m).isSome

/-- Membership test `q in quarter_plans`, analogously. -/
def inQuarterPlans (st : PlanState) (q : ℕ) : Bool :=
  st.quarterPeriod q && (st.quarterPlan q).isSome

/-- Sum `sum_past_plans` of the plans of months strictly between
`actual_month` and `current_month` (Python
`range(actual_month + 1, current_month)`). -/
def pastPlanSum (st : PlanState) (actualMonth currentMonth : ℕ) : ℚ :=
  ((List.range' (actualMonth + 1) (currentMonth - (actualMonth + 1))).map
    (fun m => if inMonthPlans st m then (st.monthPlan m).getD 0 else 0)).sum

/-- List `future_months = range(max(actual_month + 1, current_month), 13)`. -/
def futureMonths (actualMonth currentMonth : ℕ) : List ℕ :=
  List.range' (max (actualMonth + 1) currentMonth)
    (13 - max (actualMonth + 1) currentMonth)

/-- Difference `diff` redistributed over the future months: actual minus
the old month plan (0 when the month has no plan row), plus — when the
actual month already lies before the current month — the plans of the
months in between. -/
def recalcDiff (st : PlanState) (actualMonth currentMonth : ℕ)
    (actualValue : ℚ) : ℚ :=
  let diff0 : ℚ :=
    if inMonthPlans st actualMonth then
      actualValue - (st.monthPlan actualMonth).getD 0
    else 0
  if actualMonth < currentMonth then
    diff0 + pastPlanSum st actualMonth currentMonth
  else diff0

/-- New value of one future month: old plan minus the per-month
adjustment, the last future month (month 12) also absorbing the rounding
remainder, clamped at 0. -/
def newFutureValue (stale adj remaining : ℚ) (isLast : Bool) : ℚ :=
  let v := stale - adj - (if isLast then remaining else 0)
  if v < 0 then 0 else v

/-- Month-plan map after the initial update of the actual month: set to
`actual_value` when the month's period and plan rows exist, otherwise
left alone (the source only updates, it never inserts here). -/
def updatedMonthPlan (st : PlanState) (actualMonth : ℕ) (actualValue : ℚ) :
    ℕ → Option ℚ :=
  fun m =>
    if m = actualMonth ∧ inMonthPlans st actualMonth then some actualValue
    else st.monthPlan m

/-- Month-plan map after the future-month redistribution loop;
future-month values are computed from the stale pre-call plans. -/
def futureAdjustedPlan (st : PlanState) (actualMonth currentMonth : ℕ)
    (actualValue : ℚ) : ℕ → Option ℚ :=
  let diff := recalcDiff st actualMonth currentMonth actualValue
  let len : ℕ := (futureMonths actualMonth currentMonth).length
  let adj := round2 (diff / len)
  let remaining := diff - adj * len
  fun m =>
    if max (actualMonth + 1) currentMonth ≤ m ∧ m ≤ 12 ∧ inMonthPlans st m then
      some (newFutureValue ((st.monthPlan m).getD 0) adj remaining (m = 12))
    else updatedMonthPlan st actualMonth actualValue m

/-- Sum used when rewriting a quarter's plan: over the quarter's three
months, the committed actual for the actual month and otherwise the
stale month plan, skipping months absent from `month_plans`. -/
def quarterMonthSum (st : PlanState) (actualMonth : ℕ) (actualValue : ℚ)
    (q : ℕ) : ℚ :=
  ((List.range' ((q - 1) * 3 + 1) 3).map
    (fun m =>
      if inMonthPlans st m then
        if m = actualMonth then actualValue else (st.monthPlan m).getD 0
      else 0)).sum

/-- Quarter-plan map after the quarter update loop. -/
def recalcQuarterPlan (st : PlanState) (actualMonth : ℕ) (actualValue : ℚ) :
    ℕ → Option ℚ :=
  fun q =>
    if inQuarterPlans st q then
      some (quarterMonthSum st actualMonth actualValue q)
    else st.quarterPlan q

/-- Sum `sum_quarter_plans` of the stale pre-call quarter plans. -/
def staleQuarterSum (st : PlanState) : ℚ :=
  ((List.range' 1 4).map
    (fun q => if inQuarterPlans st q then (st.quarterPlan q).getD 0 else 0)).sum

/-- Yearly plan after the final step: rewritten to the stale quarter sum
when that sum differs from the current yearly value. -/
def recalcYearPlan (st : PlanState) (yearlyValue : ℚ) : Option ℚ :=
  if staleQuarterSum st ≠ yearlyValue then some (staleQuarterSum st)
  else st.yearPlan

/-- Function `recalculate_plan_with_actual` as a state transformer.
Returns the state unchanged when no yearly plan exists (the source
returns `[]`); returns right after the actual-month update when
`future_months` is empty; otherwise also rewrites future months,
quarters and the yearly plan. -/
def recalculatePlanWithActual (st : PlanState) (actualMonth : ℕ)
    (actualValue : ℚ) (currentMonth : ℕ) : PlanState :=
  match st.yearPlan with
  | none => st
  | some yearlyValue =>
    if (futureMonths actualMonth currentMonth).isEmpty then
      { st with monthPlan := updatedMonthPlan st actualMonth actualValue }
    else
      { yearPlan := recalcYearPlan st yearlyValue
        monthPeriod := st.monthPeriod
        quarterPeriod := st.quarterPeriod
        monthPlan := futureAdjustedPlan st actualMonth currentMonth actualValue
        quarterPlan := recalcQuarterPlan st actualMonth actualValue }

/-! ## Budget statistics — `calculate_budget_statistics`

From `src/service/finance.py`, lines 673–694: `percentage` starts at 0
and, when `total_plan > 0`, becomes
`min(100, round(total_actual / total_plan * 100))`; the status is
`"ahead"` for `percentage > 105`, `"behind"` for `percentage < 95`,
otherwise `"on_track"`. -/

/-- Percentage computed by `calculate_budget_statistics`. -/
def budgetStatisticsPercentage (totalPlan totalActual : ℚ) : ℚ :=
  if 0 < totalPlan then
    min 100 ((roundHalfEvenInt (totalActual / totalPlan * 100) : ℤ) : ℚ)
  else 0

/-- Status string computed by `calculate_budget_statistics`. -/
def budgetStatisticsStatus (totalPlan totalActual : ℚ) : String :=
  if budgetStatisticsPercentage totalPlan totalActual > 105 then "ahead"
  else if budgetStatisticsPercentage totalPlan totalActual < 95 then "behind"
  else "on_track"

/-! ## Period validation — `PeriodBase`

From `src/scheme/finance/period.py`, lines 14–32.  Pydantic runs the
field validators in declaration order; a failed field is left out of
`info.data`, so the month validator's presence test
`'quarter' not in info.data or info.data['quarter'] is None` succeeds
only when the quarter was supplied and itself valid. -/

/-- Quarter field validator: when a quarter is supplied it must lie in
1..4. -/
def validateQuarter (quarter : Option ℤ) : Bool :=
  match quarter with
  | none => true
  | some q => decide (1 ≤ q) && decide (q ≤ 4)

/-- Month field validator: when a month is supplied it must lie in 1..12
and the quarter must be present in `info.data` and not `None`, i.e.
supplied and itself valid. -/
def validateMonth (quarter month : Option ℤ) : Bool :=
  match month with
  | none => true
  | some m =>
    (decide (1 ≤ m) && decide (m ≤ 12)) &&
      (match quarter with
       | none => false
       | some q => validateQuarter (some q))

/-- Overall `PeriodBase` validation outcome for a (quarter, month) pair. -/
def periodBaseValid (quarter month : Option ℤ) : Bool :=
  validateQuarter quarter && validateMonth quarter month

/-- Modelled from the claim wording (spec §4.1), for comparison with
`periodBaseValid`: resolution fails exactly when the month is outside
1..12, the quarter is outside 1..4, or the quarter derived from the
month, `(month - 1) / 3 + 1`, conflicts with an explicitly supplied
quarter. -/
def claimPeriodValid (quarter month : Option ℤ) : Bool :=
  (match month with
   | none => true
   | some m => decide (1 ≤ m) && decide (m ≤ 12)) &&
  (match quarter with
   | none => true
   | some q => decide (1 ≤ q) && decide (q ≤ 4)) &&
  (match month, quarter with
   | some m, some q => decide ((m - 1) / 3 + 1 = q)
   | _, _ => true)

/-- Amended reading of the validators: validation succeeds iff a
supplied quarter lies in 1..4 and a supplied month lies in 1..12 with
the quarter also supplied; no consistency between the month's derived
quarter and the supplied quarter is checked. -/
def amendedPeriodValid (quarter month : Option ℤ) : Bool :=
  (match quarter with
   | none => true
   | some q => decide (1 ≤ q) && decide (q ≤ 4)) &&
  (match month with
   | none => true
   | some m => (decide (1 ≤ m) && decide (m ≤ 12)) && quarter.isSome)

/-! ## Comparison aggregation percentages

From `src/api/v1/endpoints/finance/analytics.py`, lines 413–424
(`prepare_comparison_data`, guard `plan_sum > 0`) and
`src/service/analytics.py`, lines 626–635 (`_get_period_values`, guard
`plan != 0`); both round the result to two digits. -/

/-- Percentage of one comparison group in `prepare_comparison_data`. -/
def prepareComparisonPercentage (actualSum planSum : ℚ) : ℚ :=
  round2 (if 0 < planSum then actualSum / planSum * 100 else 0)

/-- Field `procent` of `_get_period_values`. -/
def periodValuesProcent (plan actual : ℚ) : ℚ :=
  round2 (if plan ≠ 0 then actual / plan * 100 else 0)

/-! ## Trend statistics — `_linear_regression_forecast` and
`_compute_extended_stats`

From `src/api/v1/endpoints/finance/analytics.py`, lines 630–647 and
lines 732–741. -/

/-- Sum of the regression abscissas `0, 1, …, n-1`. -/
def regXSum (n : ℕ) : ℚ :=
  ((List.range n).map (fun i => (i : ℚ))).sum

/-- Sum of the squared regression abscissas. -/
def regX2Sum (n : ℕ) : ℚ :=
  ((List.range n).map (fun i => (i : ℚ) * (i : ℚ))).sum

/-- Sum of `x[i] * y[i]` over the series. -/
def regXYSum (series : List ℚ) : ℚ :=
  (((List.range series.length).zip series).map
    (fun p => (p.1 : ℚ) * p.2)).sum

/-- Least-squares denominator `n * x2_sum - x_sum * x_sum`. -/
def regDenom (series : List ℚ) : ℚ :=
  (series.length : ℚ) * regX2Sum series.length
    - regXSum series.length * regXSum series.length

/-- Function `_linear_regression_forecast`, returning
`(slope, intercept, next_forecast)`. -/
def linearRegressionForecast (series : List ℚ) : ℚ × ℚ × ℚ :=
  if series.length = 0 then (0, 0, 0)
  else if regDenom series = 0 then
    (0, series.sum / (series.length : ℚ), series.sum / (series.length : ℚ))
  else
    let slope := ((series.length : ℚ) * regXYSum series
      - regXSum series.length * series.sum) / regDenom series
    let intercept := (series.sum - slope * regXSum series.length)
      / (series.length : ℚ)
    (slope, intercept, slope * (series.length : ℚ) + intercept)

/-- The `r2` field of `_compute_extended_stats`: 0 for fewer than two
points, else `max(0.0, min(1.0, 0.8))` when the mean is positive and 0
otherwise (the source comment calls the 0.8 a fixed demonstration
value). -/
def computeExtendedStatsR2 (points : List ℚ) : ℚ :=
  if 2 ≤ points.length then
    if 0 < points.sum / (points.length : ℚ) then max 0 (min 1 (8/10))
    else 0
  else 0

/-! ## Concrete states used by counterexamples and witnesses -/

/-- State for C1: yearly plan 100, a lone quarter-1 plan of 10 and a
lone month-1 plan of 10. -/
def exC1 : PlanState where
  yearPlan := some 100
  monthPeriod := fun m => m == 1
  quarterPeriod := fun q => q == 1
  monthPlan := fun m => if m = 1 then some 10 else none
  quarterPlan := fun q => if q = 1 then some 10 else none

/-- State for C4: a yearly plan of 120 exists but no month or quarter
rows at all. -/
def exC4 : PlanState where
  yearPlan := some 120
  monthPeriod := fun _ => false
  quarterPeriod := fun _ => false
  monthPlan := fun _ => none
  quarterPlan := fun _ => none

/-- State for the C4 witness: yearly plan 120 and a plan of 10 for every
month. -/
def exC4w : PlanState where
  yearPlan := some 120
  monthPeriod := fun m => 1 ≤ m && m ≤ 12
  quarterPeriod := fun _ => false
  monthPlan := fun m => if 1 ≤ m ∧ m ≤ 12 then some 10 else none
  quarterPlan := fun _ => none

/-- State for C5: yearly plan 100, months 10–12 planned at 10 each and
quarter 4 planned at 30. -/
def exC5 : PlanState where
  yearPlan := some 100
  monthPeriod := fun m => 10 ≤ m && m ≤ 12
  quarterPeriod := fun q => q == 4
  monthPlan := fun m => if 10 ≤ m ∧ m ≤ 12 then some 10 else none
  quarterPlan := fun q => if q = 4 then some 30 else none

/-- State for the C6 witness: yearly plan 120 and a plan of 10 for every
month number. -/
def exC6w : PlanState where
  yearPlan := some 120
  monthPeriod := fun _ => true
  quarterPeriod := fun _ => false
  monthPlan := fun _ => some 10
  quarterPlan := fun _ => none

/-- State for the C6 counterexample: yearly plan 120, month 1 planned at
120 and months 2–12 planned at 5 each; recording an actual of 130 for
month 1 overruns the yearly plan. -/
def exC6c : PlanState where
  yearPlan := some 120
  monthPeriod := fun m => 1 ≤ m && m ≤ 12
  quarterPeriod := fun _ => false
  monthPlan := fun m =>
    if m = 1 then some 120
    else if 2 ≤ m ∧ m ≤ 12 then some 5
    else none
  quarterPlan := fun _ => none

/-! ## Evaluation helpers for the rounding functions -/

theorem roundHalfEvenInt_of_lt_half (x : ℚ) (n : ℤ) (h1 : (n : ℚ) ≤ x)
    (h2 : x < n + 1) (h3 : x - n < 1/2) : roundHalfEvenInt x = n := by
  have hf : ⌊x⌋ = n := by
    rw [Int.floor_eq_iff]
    exact ⟨h1, by exact_mod_cast h2⟩
  simp only [roundHalfEvenInt, hf]
  rw [if_pos h3]

theorem roundHalfEvenInt_of_gt_half (x : ℚ) (n : ℤ) (h1 : (n : ℚ) ≤ x)
    (h2 : x < n + 1) (h3 : 1/2 < x - n) : roundHalfEvenInt x = n + 1 := by
  have hf : ⌊x⌋ = n := by
    rw [Int.floor_eq_iff]
    exact ⟨h1, by exact_mod_cast h2⟩
  simp only [roundHalfEvenInt, hf]
  rw [if_neg (by linarith), if_pos h3]

theorem round2_eq_of_lt_half (x : ℚ) (n : ℤ) (h1 : (n : ℚ) ≤ x * 100)
    (h2 : x * 100 < n + 1) (h3 : x * 100 - n < 1/2) :
    round2 x = (n : ℚ) / 100 := by
  rw [round2, roundHalfEvenInt_of_lt_half _ _ h1 h2 h3]

theorem round2_eq_of_gt_half (x : ℚ) (n : ℤ) (h1 : (n : ℚ) ≤ x * 100)
    (h2 : x * 100 < n + 1) (h3 : 1/2 < x * 100 - n) :
    round2 x = ((n : ℚ) + 1) / 100 := by
  rw [round2, roundHalfEvenInt_of_gt_half _ _ h1 h2 h3]
  push_cast
  ring

theorem round2_of_int_mul (x : ℚ) (n : ℤ) (h : x * 100 = n) :
    round2 x = (n : ℚ) / 100 := by
  apply round2_eq_of_lt_half _ _ (le_of_eq h.symm) (by rw [h]; linarith)
  rw [h]
  norm_num

theorem round2_zero : round2 0 = 0 := by
  have h := round2_of_int_mul 0 0 (by norm_num)
  rw [h]
  norm_num

/-- C2: for any yearly value, the four quarterly allocations of
`distribute_yearly_plan` sum exactly to the yearly value, and within
each quarter the three monthly allocations sum exactly to that quarter's
value. -/
theorem distribute_yearly_plan_sum_invariant (Y : ℚ) :
    quarterValue Y 1 + quarterValue Y 2 + quarterValue Y 3 + quarterValue Y 4 = Y
    ∧ monthValue Y 1 + monthValue Y 2 + monthValue Y 3 = quarterValue Y 1
    ∧ monthValue Y 4 + monthValue Y 5 + monthValue Y 6 = quarterValue Y 2
    ∧ monthValue Y 7 + monthValue Y 8 + monthValue Y 9 = quarterValue Y 3
    ∧ monthValue Y 10 + monthValue Y 11 + monthValue Y 12 = quarterValue Y 4 := by
  refine ⟨?_, ?_, ?_, ?_, ?_⟩ <;>
    · simp only [quarterValue, monthValue]
      norm_num
      ring

/-- C7 counterexample: the validators accept the conflicting pair
quarter 4 / month 1 (month 1 derives quarter 1), and reject month 1 with
no quarter supplied, both contrary to the claim. -/
theorem periodBaseValid_cex :
    periodBaseValid (some 4) (some 1) = true
    ∧ claimPeriodValid (some 4) (some 1) = false
    ∧ periodBaseValid none (some 1) = false
    ∧ claimPeriodValid none (some 1) = true := by
  refine ⟨?_, ?_, ?_, ?_⟩ <;> rfl

/-- C7 (amended): `PeriodBase` validation succeeds iff a supplied
quarter lies in 1..4 and a supplied month lies in 1..12 with the quarter
also supplied; no month-to-quarter consistency is checked. -/
theorem periodBaseValid_amended (quarter month : Option ℤ) :
    periodBaseValid quarter month = amendedPeriodValid quarter month := by
  cases quarter with
  | none =>
    cases month with
    | none => rfl
    | some m => simp [periodBaseValid, validateQuarter, validateMonth, amendedPeriodValid]
  | some q =>
    cases month with
    | none => simp [periodBaseValid, validateQuarter, validateMonth, amendedPeriodValid]
    | some m =>
      simp only [periodBaseValid, validateQuarter, validateMonth, amendedPeriodValid,
        Option.isSome_some]
      cases h1 : decide (1 ≤ q) <;> cases h2 : decide (q ≤ 4) <;>
        cases h3 : decide (1 ≤ m) <;> cases h4 : decide (m ≤ 12) <;> simp

/-- C10: the `r2` trend statistic equals the constant 8/10 for every
series of at least two points with positive mean, and 0 for shorter
series or a non-positive mean. -/
theorem computeExtendedStatsR2_constant (points : List ℚ) :
    (2 ≤ points.length → 0 < points.sum / (points.length : ℚ) →
      computeExtendedStatsR2 points = 8/10)
    ∧ (points.length < 2 → computeExtendedStatsR2 points = 0)
    ∧ (points.sum / (points.length : ℚ) ≤ 0 → computeExtendedStatsR2 points = 0) := by
  refine ⟨?_, ?_, ?_⟩ <;> intro h
  · intro hm
    rw [computeExtendedStatsR2, if_pos h, if_pos hm]
    norm_num
  · rw [computeExtendedStatsR2, if_neg (by omega)]
  · rw [computeExtendedStatsR2]
    split_ifs with h1 h2
    · linarith
    · rfl
    · rfl

/-- C10 witness: concrete series `[1, 2]` and `[]`. -/
theorem computeExtendedStatsR2_constant_witness :
    computeExtendedStatsR2 [1, 2] = 8/10 ∧ computeExtendedStatsR2 [] = 0 := by
  constructor
  · exact (computeExtendedStatsR2_constant [1, 2]).1 (by decide) (by norm_num)
  · exact (computeExtendedStatsR2_constant []).2.1 (by decide)

/-- C8 counterexample: for a group with the nonzero summed plan -1 and
actual 1, the claim demands percentage (1 / -1) * 100 = -100, but
`prepare_comparison_data` computes 0 because its guard is `plan > 0`,
not `plan != 0`. -/
theorem comparison_percentage_cex :
    prepareComparisonPercentage 1 (-1) = 0
    ∧ (1 : ℚ) / (-1) * 100 = -100
    ∧ (0 : ℚ) ≠ -100 := by
  refine ⟨?_, by norm_num, by norm_num⟩
  rw [prepareComparisonPercentage, if_neg (by norm_num)]
  exact round2_zero

/-- C8 (amended): zero-plan groups yield percentage 0 and no division
error is possible (the embedded functions are total); a group with
positive plan yields `round((actual / plan) * 100, 2)` in
`prepare_comparison_data` (a non-positive plan yields 0 there), and a
group with nonzero plan yields `round((actual / plan) * 100, 2)` in
`_get_period_values`. -/
theorem comparison_percentage_amended (a p : ℚ) :
    (p = 0 → prepareComparisonPercentage a p = 0 ∧ periodValuesProcent p a = 0)
    ∧ (0 < p → prepareComparisonPercentage a p = round2 (a / p * 100))
    ∧ (p ≠ 0 → periodValuesProcent p a = round2 (a / p * 100))
    ∧ (p ≤ 0 → prepareComparisonPercentage a p = 0) := by
  refine ⟨?_, ?_, ?_, ?_⟩ <;> intro h
  · constructor
    · rw [prepareComparisonPercentage, if_neg (by rw [h]; norm_num)]
      exact round2_zero
    · rw [periodValuesProcent, if_neg (by simp [h])]
      exact round2_zero
  · rw [prepareComparisonPercentage, if_pos h]
  · rw [periodValuesProcent, if_pos h]
  · rw [prepareComparisonPercentage, if_neg (by linarith)]
    exact round2_zero

/-- C8 witness: concrete evaluations at plan 0 and at plan 3 with
actual 1. -/
theorem comparison_percentage_amended_witness :
    prepareComparisonPercentage 7 0 = 0 ∧ periodValuesProcent 0 7 = 0
    ∧ prepareComparisonPercentage 1 3 = 3333/100
    ∧ periodValuesProcent 3 1 = 3333/100 := by
  have h0 := (comparison_percentage_amended 7 0).1 rfl
  have h1 := (comparison_percentage_amended 1 3).2.1 (by norm_num)
  have h2 := (comparison_percentage_amended 1 3).2.2.1 (by norm_num)
  have he : round2 ((1 : ℚ) / 3 * 100) = 3333/100 := by
    have := round2_eq_of_lt_half ((1 : ℚ) / 3 * 100) 3333 (by norm_num) (by norm_num) (by norm_num)
    rw [this]
    norm_num
  exact ⟨h0.1, h0.2, by rw [h1, he], by rw [h2, he]⟩

/-- C3 counterexample: with total_plan 100 and total_actual 106 the
claim demands percentage 106 and status "ahead", but the code caps the
percentage with `min(100, ...)`, yielding 100 and "on_track". -/
theorem budget_status_cex :
    budgetStatisticsPercentage 100 106 = 100
    ∧ budgetStatisticsStatus 100 106 = "on_track"
    ∧ (100 : ℚ) ≠ 106
    ∧ "on_track" ≠ "ahead" := by
  have hp : budgetStatisticsPercentage 100 106 = 100 := by
    rw [budgetStatisticsPercentage, if_pos (by norm_num)]
    have hr : roundHalfEvenInt ((106 : ℚ) / 100 * 100) = 106 := by
      apply roundHalfEvenInt_of_lt_half <;> norm_num
    rw [hr]
    norm_num
  refine ⟨hp, ?_, by norm_num, by decide⟩
  rw [budgetStatisticsStatus, hp]
  norm_num

/-- C3 (amended): the budget-statistics percentage is
`min(100, round(total_actual / total_plan * 100))` when the plan is
positive and 0 otherwise, hence never exceeds 100 and the status
"ahead" (reserved for percentage > 105) is unreachable; percentage 94
yields "behind" and 100 yields "on_track". -/
theorem budget_status_amended (tp ta : ℚ) :
    budgetStatisticsPercentage tp ta ≤ 100
    ∧ budgetStatisticsStatus tp ta ≠ "ahead"
    ∧ (tp = 0 → budgetStatisticsPercentage tp ta = 0)
    ∧ budgetStatisticsStatus 100 94 = "behind"
    ∧ budgetStatisticsStatus 100 100 = "on_track" := by
  have hle : budgetStatisticsPercentage tp ta ≤ 100 := by
    rw [budgetStatisticsPercentage]
    split_ifs
    · exact min_le_left _ _
    · norm_num
  have h94 : budgetStatisticsPercentage 100 94 = 94 := by
    rw [budgetStatisticsPercentage, if_pos (by norm_num)]
    have hr : roundHalfEvenInt ((94 : ℚ) / 100 * 100) = 94 := by
      apply roundHalfEvenInt_of_lt_half <;> norm_num
    rw [hr]
    norm_num
  have h100 : budgetStatisticsPercentage 100 100 = 100 := by
    rw [budgetStatisticsPercentage, if_pos (by norm_num)]
    have hr : roundHalfEvenInt ((100 : ℚ) / 100 * 100) = 100 := by
      apply roundHalfEvenInt_of_lt_half <;> norm_num
    rw [hr]
    norm_num
  refine ⟨hle, ?_, ?_, ?_, ?_⟩
  · rw [budgetStatisticsStatus, if_neg (by push_neg; linarith)]
    split_ifs <;> decide
  · intro h
    rw [budgetStatisticsPercentage, if_neg (by rw [h]; norm_num)]
  · rw [budgetStatisticsStatus, h94]
    norm_num
  · rw [budgetStatisticsStatus, h100]
    norm_num

/-- C3 witness: the zero-plan clause evaluated at plan 0, actual 55. -/
theorem budget_status_amended_witness :
    (0 : ℚ) = 0 ∧ budgetStatisticsPercentage 0 55 = 0 :=
  ⟨rfl, (budget_status_amended 0 55).2.2.1 rfl⟩

/-- Concrete regression sums for the series `[1, 2, 3, 4, 5]`. -/
theorem linearRegressionForecast_eval :
    regXSum 5 = 10 ∧ regX2Sum 5 = 30 ∧ regXYSum [1, 2, 3, 4, 5] = 40
    ∧ regDenom [1, 2, 3, 4, 5] = 50 := by
  refine ⟨?_, ?_, ?_, ?_⟩ <;>
    · simp [regXSum, regX2Sum, regXYSum, regDenom, List.range_succ]
      norm_num

/-- C9: whenever the series is nonempty and the regression denominator
is nonzero, the computed slope and intercept satisfy the ordinary
least-squares normal equations on the (index, value) pairs and the
forecast is `slope * n + intercept`, one step beyond the series; for
the series `[1, 2, 3, 4, 5]` the result is slope 1, intercept 1,
forecast 6. -/
theorem linear_regression_ols (series : List ℚ)
    (h0 : series.length ≠ 0) (hd : regDenom series ≠ 0) :
    ((series.length : ℚ) * (linearRegressionForecast series).2.1
        + (linearRegressionForecast series).1 * regXSum series.length
      = series.sum)
    ∧ ((linearRegressionForecast series).2.1 * regXSum series.length
        + (linearRegressionForecast series).1 * regX2Sum series.length
      = regXYSum series)
    ∧ (linearRegressionForecast series).2.2
      = (linearRegressionForecast series).1 * (series.length : ℚ)
        + (linearRegressionForecast series).2.1
    ∧ linearRegressionForecast [1, 2, 3, 4, 5] = (1, 1, 6) := by
  have hn : ((series.length : ℚ)) ≠ 0 := by exact_mod_cast h0
  have hlrf : linearRegressionForecast series =
      (((series.length : ℚ) * regXYSum series
          - regXSum series.length * series.sum) / regDenom series,
        (series.sum - (((series.length : ℚ) * regXYSum series
          - regXSum series.length * series.sum) / regDenom series)
            * regXSum series.length) / (series.length : ℚ),
        (((series.length : ℚ) * regXYSum series
          - regXSum series.length * series.sum) / regDenom series)
            * (series.length : ℚ)
          + (series.sum - (((series.length : ℚ) * regXYSum series
            - regXSum series.length * series.sum) / regDenom series)
              * regXSum series.length) / (series.length : ℚ)) := by
    rw [linearRegressionForecast, if_neg h0, if_neg hd]
  have hconc : linearRegressionForecast [1, 2, 3, 4, 5] = (1, 1, 6) := by
    have he := linearRegressionForecast_eval
    have hlen : ([1, 2, 3, 4, 5] : List ℚ).length = 5 := rfl
    have hsum : ([1, 2, 3, 4, 5] : List ℚ).sum = 15 := by norm_num
    rw [linearRegressionForecast, if_neg (by rw [hlen]; norm_num),
      if_neg (by rw [he.2.2.2]; norm_num)]
    simp only [hlen, hsum, he.1, he.2.2.1, he.2.2.2]
    norm_num [Prod.ext_iff]
  rw [hlrf]
  refine ⟨?_, ?_, ?_, hconc⟩
  · field_simp
    ring
  · rw [regDenom] at hd ⊢
    field_simp
    ring
  · rfl

/-- C9 witness: hypotheses and conclusion discharged on
`[1, 2, 3, 4, 5]`. -/
theorem linear_regression_ols_witness :
    ([1, 2, 3, 4, 5] : List ℚ).length ≠ 0
    ∧ regDenom [1, 2, 3, 4, 5] ≠ 0
    ∧ linearRegressionForecast [1, 2, 3, 4, 5] = (1, 1, 6) := by
  have h0 : ([1, 2, 3, 4, 5] : List ℚ).length ≠ 0 := by decide
  have hd : regDenom [1, 2, 3, 4, 5] ≠ 0 := by
    rw [linearRegressionForecast_eval.2.2.2]
    norm_num
  exact ⟨h0, hd, (linear_regression_ols [1, 2, 3, 4, 5] h0 hd).2.2.2⟩

/-- With `actual_month = 12` the future-month list is always empty. -/
theorem futureMonths_twelve (cm : ℕ) : futureMonths 12 cm = [] := by
  rw [futureMonths]
  have h : 13 - max (12 + 1) cm = 0 := Nat.sub_eq_zero_of_le (Nat.le_max_left _ _)
  rw [h]
  rfl

/-- A redistributed future-month value is never negative: it is clamped
at 0. -/
theorem newFutureValue_nonneg (s adj r : ℚ) (l : Bool) :
    0 ≤ newFutureValue s adj r l := by
  simp only [newFutureValue]
  split_ifs <;> linarith

/-- C5 (amended): recalculating at month 12 returns early after the
actual-month update: only the month-12 PlanValue changes (set to the
actual when its rows exist), while every quarter plan — quarter 4
included — the yearly plan and every other month plan are left exactly
as they were. -/
theorem recalculate_december_updates_only_month12 (st : PlanState) (a : ℚ) (cm : ℕ) :
    (recalculatePlanWithActual st 12 a cm).yearPlan = st.yearPlan
    ∧ (∀ q, (recalculatePlanWithActual st 12 a cm).quarterPlan q = st.quarterPlan q)
    ∧ (∀ k, k ≠ 12 → (recalculatePlanWithActual st 12 a cm).monthPlan k = st.monthPlan k)
    ∧ (st.yearPlan.isSome = true → inMonthPlans st 12 = true →
        (recalculatePlanWithActual st 12 a cm).monthPlan 12 = some a)
    ∧ (inMonthPlans st 12 = false →
        (recalculatePlanWithActual st 12 a cm).monthPlan 12 = st.monthPlan 12) := by
  have hfm : (futureMonths 12 cm).isEmpty = true := by
    rw [futureMonths_twelve]
    rfl
  cases hy : st.yearPlan with
  | none =>
    have hnone : recalculatePlanWithActual st 12 a cm = st := by
      simp only [recalculatePlanWithActual, hy]
    rw [hnone]
    refine ⟨hy, fun q => rfl, fun k _ => rfl, fun hs _ => ?_, fun _ => rfl⟩
    exact absurd hs (by simp)
  | some Y =>
    have hrec : recalculatePlanWithActual st 12 a cm
        = { st with monthPlan := updatedMonthPlan st 12 a } := by
      simp only [recalculatePlanWithActual, hy, hfm, if_true]
    rw [hrec]
    refine ⟨hy, fun q => rfl, fun k hk => ?_, fun _ hm => ?_, fun hm => ?_⟩
    · show updatedMonthPlan st 12 a k = st.monthPlan k
      rw [updatedMonthPlan, if_neg]
      rintro ⟨h1, -⟩
      exact hk h1
    · show updatedMonthPlan st 12 a 12 = some a
      rw [updatedMonthPlan, if_pos ⟨rfl, hm⟩]
    · show updatedMonthPlan st 12 a 12 = st.monthPlan 12
      rw [updatedMonthPlan, if_neg]
      rintro ⟨-, h2⟩
      rw [hm] at h2
      exact Bool.false_ne_true h2

/-- C5 counterexample: at month 12 with actual 99 on a state whose
months 10–12 are planned at 10 each and quarter 4 at 30, the claim
demands quarter 4 be rewritten to 10 + 10 + 99, but the code leaves it
at 30. -/
theorem recalculate_december_cex :
    (recalculatePlanWithActual exC5 12 99 1).monthPlan 12 = some 99
    ∧ (recalculatePlanWithActual exC5 12 99 1).quarterPlan 4 = some 30
    ∧ exC5.quarterPlan 4 = some 30
    ∧ (10 : ℚ) + 10 + 99 ≠ 30 := by
  have hy : exC5.yearPlan = some 100 := rfl
  have hfm : (futureMonths 12 1).isEmpty = true := rfl
  refine ⟨?_, ?_, by norm_num [exC5], by norm_num⟩
  · simp only [recalculatePlanWithActual, hy, hfm, if_pos]
    rw [updatedMonthPlan, if_pos ⟨rfl, by decide⟩]
  · simp only [recalculatePlanWithActual, hy, hfm, if_pos]
    norm_num [exC5]

/-- C5 witness: the amended theorem instantiated on the concrete state
`exC5`. -/
theorem recalculate_december_witness :
    exC5.yearPlan.isSome = true
    ∧ inMonthPlans exC5 12 = true
    ∧ (recalculatePlanWithActual exC5 12 99 5).monthPlan 12 = some 99
    ∧ (recalculatePlanWithActual exC5 12 99 5).quarterPlan 4 = exC5.quarterPlan 4
    ∧ (recalculatePlanWithActual exC5 12 99 5).monthPlan 11 = exC5.monthPlan 11 := by
  have h := recalculate_december_updates_only_month12 exC5 99 5
  exact ⟨rfl, by decide, h.2.2.2.1 rfl (by decide), h.2.1 4, h.2.2.1 11 (by decide)⟩

/-- C1 (amended): whenever a yearly plan exists and at least one future
month remains, the yearly PlanValue after recalculation equals the sum
of the pre-call quarterly PlanValues — so it is preserved only when the
pre-call quarters already summed to it, not unconditionally. -/
theorem recalculate_rewrites_yearly_from_stale_quarters (st : PlanState)
    (Y a : ℚ) (am cm : ℕ) (hY : st.yearPlan = some Y)
    (hfm : (futureMonths am cm).isEmpty = false) :
    (recalculatePlanWithActual st am a cm).yearPlan = some (staleQuarterSum st) := by
  simp only [recalculatePlanWithActual, hY, hfm, Bool.false_eq_true, if_false]
  rw [recalcYearPlan]
  split_ifs with h
  · rfl
  · rw [hY, not_ne_iff.mp h]

/-- C1 counterexample: on a state with yearly plan 100 whose only
quarter plan holds 10, recalculation rewrites the yearly PlanValue to
10, so it does not hold the value it held before the call. -/
theorem recalculate_changes_yearly_cex :
    (recalculatePlanWithActual exC1 1 10 1).yearPlan = some 10
    ∧ exC1.yearPlan = some 100
    ∧ (10 : ℚ) ≠ 100 := by
  have hy : exC1.yearPlan = some 100 := rfl
  have hfm : (futureMonths 1 1).isEmpty = false := rfl
  have hr : List.range' 1 4 = [1, 2, 3, 4] := rfl
  have hsq : staleQuarterSum exC1 = 10 := by
    simp [staleQuarterSum, hr, inQuarterPlans, exC1]
  refine ⟨?_, rfl, by norm_num⟩
  simp only [recalculatePlanWithActual, hy, hfm, Bool.false_eq_true, if_false]
  rw [recalcYearPlan, hsq, if_pos (by norm_num)]

/-- C1 witness: the amended theorem instantiated on `exC1`. -/
theorem recalculate_yearly_witness :
    exC1.yearPlan = some 100
    ∧ (futureMonths 1 1).isEmpty = false
    ∧ (recalculatePlanWithActual exC1 1 10 1).yearPlan = some (staleQuarterSum exC1) :=
  ⟨rfl, rfl, recalculate_rewrites_yearly_from_stale_quarters exC1 100 10 1 1 rfl rfl⟩

/-- C4 (amended): when the yearly plan exists and a month-`m` plan row
(with its period row) already exists, recalculation sets the month-`m`
PlanValue to the committed actual exactly; when no month-`m` plan row
exists, none is created — the code updates but never inserts, so the
claimed upsert fails. -/
theorem recalculate_actual_month_agreement (st : PlanState) (am cm : ℕ) (a : ℚ) :
    (st.yearPlan.isSome = true → inMonthPlans st am = true →
      (recalculatePlanWithActual st am a cm).monthPlan am = some a)
    ∧ (inMonthPlans st am = false →
      (recalculatePlanWithActual st am a cm).monthPlan am = st.monthPlan am) := by
  cases hy : st.yearPlan with
  | none =>
    have hnone : recalculatePlanWithActual st am a cm = st := by
      simp only [recalculatePlanWithActual, hy]
    constructor
    · intro hs
      exact absurd hs (by simp)
    · intro _
      rw [hnone]
  | some Y =>
    constructor <;> intro h1
    · intro hm
      by_cases hfm : (futureMonths am cm).isEmpty = true
      · simp only [recalculatePlanWithActual, hy, hfm, if_true]
        rw [updatedMonthPlan, if_pos ⟨rfl, hm⟩]
      · have hfm2 : (futureMonths am cm).isEmpty = false := by
          revert hfm
          cases (futureMonths am cm).isEmpty <;> simp
        simp only [recalculatePlanWithActual, hy, hfm2, Bool.false_eq_true, if_false,
          futureAdjustedPlan]
        rw [if_neg (fun hc => absurd hc.1 (by omega)), updatedMonthPlan,
          if_pos ⟨rfl, hm⟩]
    · by_cases hfm : (futureMonths am cm).isEmpty = true
      · simp only [recalculatePlanWithActual, hy, hfm, if_true]
        rw [updatedMonthPlan, if_neg]
        rintro ⟨-, h2⟩
        rw [h1] at h2
        exact Bool.false_ne_true h2
      · have hfm2 : (futureMonths am cm).isEmpty = false := by
          revert hfm
          cases (futureMonths am cm).isEmpty <;> simp
        simp only [recalculatePlanWithActual, hy, hfm2, Bool.false_eq_true, if_false,
          futureAdjustedPlan]
        rw [if_neg, updatedMonthPlan, if_neg]
        · rintro ⟨-, h2⟩
          rw [h1] at h2
          exact Bool.false_ne_true h2
        · rintro ⟨-, -, h3⟩
          rw [h1] at h3
          exact Bool.false_ne_true h3

/-- C4 counterexample: on a state with a yearly plan but no month rows,
recalculation for month 3 with actual 50 leaves the month-3 PlanValue
absent — it does not equal 50 after the call. -/
theorem recalculate_no_upsert_cex :
    (recalculatePlanWithActual exC4 3 50 1).monthPlan 3 = none
    ∧ exC4.yearPlan = some 120
    ∧ (none : Option ℚ) ≠ some 50 := by
  refine ⟨?_, rfl, by simp⟩
  have h2 : (recalculatePlanWithActual exC4 3 50 1).monthPlan 3
      = futureAdjustedPlan exC4 3 1 50 3 := rfl
  rw [h2]
  simp only [futureAdjustedPlan]
  rw [if_neg (by decide), updatedMonthPlan, if_neg (by decide)]
  rfl

/-- C4 witness: the amended theorem instantiated on `exC4w` at month 3
with actual 50. -/
theorem recalculate_actual_month_witness :
    exC4w.yearPlan.isSome = true
    ∧ inMonthPlans exC4w 3 = true
    ∧ (recalculatePlanWithActual exC4w 3 50 1).monthPlan 3 = some 50 :=
  ⟨rfl, by decide,
    (recalculate_actual_month_agreement exC4w 3 1 50).1 rfl (by decide)⟩

/-- C6 (amended): if no pre-call month plan is negative then no month
plan after the actual month is negative after recalculation — each
redistributed future month is individually clamped at 0 and no
underflow error is raised.  (The claim's stronger reading, that an
overrun zeroes every future month, is refuted separately.) -/
theorem recalculate_future_month_plans_nonneg (st : PlanState) (am cm k : ℕ)
    (a : ℚ) (hnn : ∀ j v, st.monthPlan j = some v → 0 ≤ v) (hk : am < k) :
    ∀ v, (recalculatePlanWithActual st am a cm).monthPlan k = some v → 0 ≤ v := by
  intro v hv
  cases hy : st.yearPlan with
  | none =>
    have hnone : recalculatePlanWithActual st am a cm = st := by
      simp only [recalculatePlanWithActual, hy]
    rw [hnone] at hv
    exact hnn k v hv
  | some Y =>
    by_cases hfm : (futureMonths am cm).isEmpty = true
    · have hrec : recalculatePlanWithActual st am a cm
          = { st with monthPlan := updatedMonthPlan st am a } := by
        simp only [recalculatePlanWithActual, hy, hfm, if_true]
      rw [hrec] at hv
      replace hv : updatedMonthPlan st am a k = some v := hv
      rw [updatedMonthPlan, if_neg (fun hc => absurd hc.1 (by omega))] at hv
      exact hnn k v hv
    · have hfm2 : (futureMonths am cm).isEmpty = false := by
        revert hfm
        cases (futureMonths am cm).isEmpty <;> simp
      have hrec : recalculatePlanWithActual st am a cm
          = { yearPlan := recalcYearPlan st Y
              monthPeriod := st.monthPeriod
              quarterPeriod := st.quarterPeriod
              monthPlan := futureAdjustedPlan st am cm a
              quarterPlan := recalcQuarterPlan st am a } := by
        simp only [recalculatePlanWithActual, hy, hfm2, Bool.false_eq_true, if_false]
      rw [hrec] at hv
      replace hv : futureAdjustedPlan st am cm a k = some v := hv
      simp only [futureAdjustedPlan] at hv
      split_ifs at hv with hc
      · rw [← Option.some.inj hv]
        exact newFutureValue_nonneg _ _ _ _
      · rw [updatedMonthPlan, if_neg (fun hc2 => absurd hc2.1 (by omega))] at hv
        exact hnn k v hv

/-- C6 witness: the theorem instantiated on `exC6w`, month 13 being
untouched by the redistribution. -/
theorem recalculate_future_month_plans_nonneg_witness :
    (recalculatePlanWithActual exC6w 3 50 1).monthPlan 13 = some 10
    ∧ (3 : ℕ) < 13
    ∧ (0 : ℚ) ≤ 10 := by
  have hev : (recalculatePlanWithActual exC6w 3 50 1).monthPlan 13 = some 10 := by
    have h2 : (recalculatePlanWithActual exC6w 3 50 1).monthPlan 13
        = futureAdjustedPlan exC6w 3 1 50 13 := rfl
    rw [h2]
    simp only [futureAdjustedPlan]
    rw [if_neg (fun hc => absurd hc.2.1 (by omega)), updatedMonthPlan,
      if_neg (by decide)]
    rfl
  have hnn : ∀ j v, exC6w.monthPlan j = some v → 0 ≤ v := by
    intro j v h
    have h10 : (10 : ℚ) = v := Option.some.inj h
    rw [← h10]
    norm_num
  exact ⟨hev, by omega,
    recalculate_future_month_plans_nonneg exC6w 3 1 13 50 hnn (by omega) 10 hev⟩

/-- C6 counterexample: with yearly plan 120, month 1 planned at 120 and
months 2–12 at 5, committing an actual of 130 (which exceeds the yearly
plan) leaves month 2 at 5 - 0.91 = 4.09, not 0: an overrun does not
zero every future month. -/
theorem recalculate_overrun_cex :
    (recalculatePlanWithActual exC6c 1 130 1).monthPlan 2 = some (409/100)
    ∧ exC6c.yearPlan = some 120
    ∧ (120 : ℚ) < 130
    ∧ (409/100 : ℚ) ≠ 0 := by
  refine ⟨?_, rfl, by norm_num, by norm_num⟩
  have h2 : (recalculatePlanWithActual exC6c 1 130 1).monthPlan 2
      = futureAdjustedPlan exC6c 1 1 130 2 := rfl
  rw [h2]
  simp only [futureAdjustedPlan]
  rw [if_pos (by decide)]
  have hstale : (exC6c.monthPlan 2).getD 0 = 5 := by
    simp [exC6c]
  have hdiff : recalcDiff exC6c 1 1 130 = 10 := by
    simp only [recalcDiff]
    rw [if_neg (by omega), if_pos (by decide)]
    simp [exC6c]
    norm_num
  have hadj : round2 (recalcDiff exC6c 1 1 130 / ((futureMonths 1 1).length : ℚ))
      = 91/100 := by
    rw [hdiff]
    have hlen : ((futureMonths 1 1).length : ℚ) = 11 := by
      norm_num [show (futureMonths 1 1).length = 11 from rfl]
    rw [hlen]
    have h := round2_eq_of_gt_half ((10 : ℚ)/11) 90 (by norm_num) (by norm_num)
      (by norm_num)
    rw [h]
    norm_num
  rw [hadj, hstale]
  norm_num [newFutureValue]
